import Mathlib

/-!
Shallow embedding of the antiSMASH database search query engine
(`api/search.py`): query parsing (structured and unstructured),
term classification, category resolution, boolean set combination,
pagination, statistics and the available-terms registry.

The database (the Catalog Store) is external to the engine; it is
modelled as a record of pure lookup functions passed in explicitly,
mirroring the cursor calls of the source.
-/

namespace DbApi

/-- One parsed search clause, as built by both parsers:
`{'category': ..., 'term': ..., 'operation': ...}`. -/
structure Clause where
  category : String
  term : String
  operation : String
  deriving Repr, DecidableEq

/-! ### Sanitizer (source lines 239-266) -/

/-- `WHITELIST`: the allow-listed characters, built exactly as the source
does from uppercase letters, their lowercase forms, digits, and the
characters `_`, `-`, `(`, `)`, space. -/
def WHITELIST : List Char :=
  "ABCDEFGHIJKLMNOPQRSTUVWXYZ".data ++ "abcdefghijklmnopqrstuvwxyz".data
    ++ "0123456789".data ++ ['_', '-', '(', ')', ' ']

/-- `sanitise_string`: keep only the whitelisted characters, in order. -/
def sanitise_string (search_string : String) : String :=
  String.mk (search_string.data.filter (fun symbol => WHITELIST.contains symbol))

/-! ### Structured parser (source lines 126-147)

`parse_search_string` runs `re.finditer` with the pattern
`\[(\w+)(:\w+)?\](\w+)` over the search string.  The scanner below is a
direct implementation of that regex's matching behaviour: at each
position try to match the pattern (the groups `\w+` are maximal runs of
word characters; backtracking cannot produce any other match for this
pattern), emit a clause and continue after the match on success,
otherwise advance one character. -/

/-- Python 2 `\w` without `re.UNICODE`: `[A-Za-z0-9_]`. -/
def isWordChar (c : Char) : Bool :=
  c.isAlpha || c.isDigit || c == '_'

/-- Split off the maximal leading run of word characters (`\w*`). -/
def takeWord : List Char → List Char × List Char
  | [] => ([], [])
  | c :: cs =>
    if isWordChar c then
      let (w, r) := takeWord cs
      (c :: w, r)
    else
      ([], c :: cs)

/-- Try to match `\[(\w+)(:\w+)?\](\w+)` at the head of the character
list.  On success, return the clause (operation defaulting to `"and"`
when the `:op` group is absent) and the rest of the input. -/
def matchAt : List Char → Option (Clause × List Char)
  | '[' :: rest =>
    match takeWord rest with
    | ([], _) => none
    | (c1 :: w1, ':' :: r2) =>
      match takeWord r2 with
      | ([], _) => none
      | (c2 :: w2, ']' :: r4) =>
        match takeWord r4 with
        | ([], _) => none
        | (c3 :: w3, r5) =>
          some (⟨String.mk (c1 :: w1), String.mk (c3 :: w3), String.mk (c2 :: w2)⟩, r5)
      | (_ :: _, _) => none
    | (c1 :: w1, ']' :: r4) =>
      match takeWord r4 with
      | ([], _) => none
      | (c3 :: w3, r5) =>
        some (⟨String.mk (c1 :: w1), String.mk (c3 :: w3), "and"⟩, r5)
    | (_ :: _, _) => none
  | _ => none

/-- The `re.finditer` loop: collect all non-overlapping matches left to
right, skipping one character when no match starts at the current
position.  The first argument is fuel; a successful match consumes at
least one character and a failure consumes exactly one, so fuel equal to
the input length always suffices (`scanFuel_fuel_irrelevant` below makes
this precise). -/
def scanFuel : ℕ → List Char → List Clause
  | 0, _ => []
  | _ + 1, [] => []
  | n + 1, c :: rest =>
    match matchAt (c :: rest) with
    | some (cl, r) => cl :: scanFuel n r
    | none => scanFuel n rest

/-- `parse_search_string`: parse the structured bracketed syntax, e.g.
`[type]lanthipeptide [genus:or]Streptomyces`. -/
def parse_search_string (search_string : String) : List Clause :=
  scanFuel search_string.data.length search_string.data

/-! ### The Catalog Store boundary

The source talks to the database through `get_db().cursor()` and the
`sql` module.  The engine's own logic only depends on the answers those
queries return, so the store is modelled as a record of pure lookup
functions; each field mirrors one SQL statement used by the engine. -/

/-- Classification probes used by `parse_simple_search`
(`SEARCH_IS_TYPE`, `SEARCH_IS_ACC`, `SEARCH_IS_GENUS`,
`SEARCH_IS_SPECIES`, `SEARCH_IS_MONOMER`).  Each takes the query
argument the engine passes (`cur.execute(sql_stmt, (arg,))`) and returns
the canonical value of the first row (`ret.term`, `ret.acc`, `ret.genus`,
`ret.species`, `ret.name`), or `none` when `fetchone()` finds nothing.
Note `SEARCH_IS_SPECIES` receives the already-formatted pattern
`'% ' + term`.  -/
structure CatalogStore where
  search_is_type : String → Option String
  search_is_acc : String → Option String
  search_is_genus : String → Option String
  search_is_species : String → Option String
  search_is_monomer : String → Option String

/-- The `sql` module's `CLUSTER_BY_*` attributes, keyed by the
upper-cased category name: `CLUSTER_BY_<CAT>_FUZZY` (one `%term%`
argument), `CLUSTER_BY_<CAT>` (one exact argument) and
`CLUSTER_BY_<CAT>_OR_DESCRIPTION` (an exact and a `%term%` argument).
`none` models a missing attribute (Python `AttributeError`); `some q`
models a present statement, `q args` being the set of `bgc_id`s of the
rows it returns. -/
structure SqlTables where
  cluster_by_fuzzy : String → Option (String → Finset ℕ)
  cluster_by : String → Option (String → Finset ℕ)
  cluster_by_or_desc : String → Option (String → String → Finset ℕ)

/-- The two grouped-count queries of `calculate_stats`
(`SEARCH_SUMMARY_TYPES` and `SEARCH_SUMMARY_PHYLUM`): each takes the
result id list and returns (label, count) rows. -/
structure StatsStore where
  search_summary_types : List ℕ → List (String × ℕ)
  search_summary_phylum : List ℕ → List (String × ℕ)

/-- Everything `get_db()` serves to the search path. -/
structure SearchDb where
  probes : CatalogStore
  tables : SqlTables
  summaries : StatsStore

/-! ### Unstructured parser / Term Classifier (source lines 150-190) -/

/-- The body of the `for term in cleaned_terms` loop of
`parse_simple_search`: probe the store in the fixed order type,
accession, genus, species (with the `'% ' + term` pattern), monomer;
the first hit fixes the category and canonical term, otherwise fall
through to `compound_seq` with the term unchanged.  Every clause gets
operation `and`. -/
def classify_term (store : CatalogStore) (term : String) : Clause :=
  match store.search_is_type term with
  | some canonical => ⟨"type", canonical, "and"⟩
  | none =>
    match store.search_is_acc term with
    | some canonical => ⟨"acc", canonical, "and"⟩
    | none =>
      match store.search_is_genus term with
      | some canonical => ⟨"genus", canonical, "and"⟩
      | none =>
        match store.search_is_species ("% " ++ term) with
        | some canonical => ⟨"species", canonical, "and"⟩
        | none =>
          match store.search_is_monomer term with
          | some canonical => ⟨"monomer", canonical, "and"⟩
          | none => ⟨"compound_seq", term, "and"⟩

/-- Helper for `splitTokens`: walk the characters, accumulating the
current (reversed) token and flushing it at whitespace boundaries. -/
def splitTokensAux : List Char → List Char → List String
  | [], acc => if acc = [] then [] else [String.mk acc.reverse]
  | c :: cs, acc =>
    if c.isWhitespace then
      if acc = [] then splitTokensAux cs []
      else String.mk acc.reverse :: splitTokensAux cs []
    else splitTokensAux cs (c :: acc)

/-- Python's `str.split()`: split on whitespace runs, dropping empty
tokens (whitespace-only input gives no tokens). -/
def splitTokens (s : String) : List String :=
  splitTokensAux s.data []

/-- `parse_simple_search`: split the input on whitespace, sanitise each
token, and classify each cleaned token into one clause. -/
def parse_simple_search (store : CatalogStore) (search_string : String) : List Clause :=
  ((splitTokens search_string).map sanitise_string).map (classify_term store)

/-! ### Category Resolver (source lines 193-236) -/

/-- `clusters_by_category`: pick the SQL statement by probing, in
order, the fuzzy table, the exact table, and the exact-or-description
table for the upper-cased category name, with the corresponding search
arguments; an unknown category yields the empty set. -/
def clusters_by_category (tables : SqlTables) (category term : String) : Finset ℕ :=
  match tables.cluster_by_fuzzy category.toUpper with
  | some q => q ("%" ++ term ++ "%")
  | none =>
    match tables.cluster_by category.toUpper with
    | some q => q term
    | none =>
      match tables.cluster_by_or_desc category.toUpper with
      | some q => q term ("%" ++ term ++ "%")
      | none => (∅ : Finset ℕ)

/-! ### Stats Aggregator (source lines 102-123) -/

/-- One `{'labels': ..., 'data': ...}` block, obtained by unzipping the
(label, count) rows of a summary query. -/
structure GroupCounts where
  labels : List String
  data : List ℕ
  deriving Repr, DecidableEq

/-- The populated stats dict `{'clusters_by_type': ..,
'clusters_by_phylum': ..}`. -/
structure Stats where
  clusters_by_type : GroupCounts
  clusters_by_phylum : GroupCounts
  deriving Repr, DecidableEq

/-- `calculate_stats`: an empty result list short-circuits to the empty
dict (modelled `none`); otherwise the two summary queries are unzipped
into labels/data blocks. -/
def calculate_stats (summaries : StatsStore) (bgc_list : List ℕ) : Option Stats :=
  if bgc_list.length < 1 then none
  else
    let type_rows := summaries.search_summary_types bgc_list
    let phylum_rows := summaries.search_summary_phylum bgc_list
    some ⟨⟨type_rows.map Prod.fst, type_rows.map Prod.snd⟩,
          ⟨phylum_rows.map Prod.fst, phylum_rows.map Prod.snd⟩⟩

/-! ### Set Combiner and search entry point (source lines 69-99) -/

/-- One step of the combination loop (source lines 85-90). -/
def combine_step (final : Finset ℕ) (entry : Clause × Finset ℕ) : Finset ℕ :=
  if entry.1.operation = "or" then final ∪ entry.2
  else if entry.1.operation = "not" then final \ entry.2
  else final ∩ entry.2

/-- The Set Combiner (source lines 76-90): start from the union of all
per-clause sets (`all_clusters`, accumulated while collecting), then
fold the operations over the clauses in order. -/
def combine_sets (parsed_query : List Clause) (collected_sets : List (Finset ℕ)) : Finset ℕ :=
  let all_clusters := collected_sets.foldl (fun a s => a ∪ s) ∅
  (parsed_query.zip collected_sets).foldl combine_step all_clusters

/-- Mode selection of `search_bgcs` (source lines 71-74): structured
parsing when the input contains `[`, unstructured otherwise. -/
def parse_query (store : CatalogStore) (search_string : String) : List Clause :=
  if search_string.data.contains '[' then parse_search_string search_string
  else parse_simple_search store search_string

/-- Source lines 76-90: resolve each clause to its cluster set and
combine. -/
def final_clusters (db : SearchDb) (search_string : String) : Finset ℕ :=
  let parsed_query := parse_query db.probes search_string
  let collected_sets := parsed_query.map
    (fun entry => clusters_by_category db.tables entry.category entry.term)
  combine_sets parsed_query collected_sets

/-- Source lines 91-92: `bgc_list = list(final); bgc_list.sort()`. -/
def bgc_list_sorted (db : SearchDb) (search_string : String) : List ℕ :=
  (final_clusters db search_string).sort (· ≤ ·)

/-- `search_bgcs`: parse (structured when the input contains `[`, else
unstructured), resolve each clause to a set, combine, sort ascending,
compute stats over the whole result, and slice the page
(`bgc_list[offset:end]` with `end = min(offset+paginate, total)` when
`paginate > 0`, else `end = total`).  The per-id presenter (`mapfunc`)
is external; the page of record ids is returned. -/
def search_bgcs (db : SearchDb) (search_string : String) (offset : ℕ := 0)
    (paginate : ℕ := 0) : ℕ × Option Stats × List ℕ :=
  let bgc_list := bgc_list_sorted db search_string
  let total := bgc_list.length
  let stats := calculate_stats db.summaries bgc_list
  let e := if paginate > 0 then min (offset + paginate) total else total
  (total, stats, (bgc_list.take e).drop offset)

/-! ### Available-Terms Registry (source lines 19-31, 269-350) -/

/-- The `AVAILABLE` handler table: category name to prefix-lookup
function (each handler is ORM glue returning the store's distinct
values; modelled as an opaque function per registered name). -/
def RegistryTable : Type := String → Option (String → List String)

/-- `available_term_by_category`: sanitise the category and the term,
then dispatch to the registered handler; unknown categories yield an
empty list. -/
def available_term_by_category (available : RegistryTable) (category term : String) :
    List String :=
  let cleaned_category := sanitise_string category
  let cleaned_term := sanitise_string term
  match available cleaned_category with
  | some handler => handler cleaned_term
  | none => []

/-! ### Concrete instances used to exercise the theorems -/

/-- A store on which every classification probe misses. -/
def emptyCatalog : CatalogStore :=
  ⟨fun _ => none, fun _ => none, fun _ => none, fun _ => none, fun _ => none⟩

/-- A `sql` module with no `CLUSTER_BY_*` attribute at all. -/
def emptySqlTables : SqlTables := ⟨fun _ => none, fun _ => none, fun _ => none⟩

/-- Summary queries that return no rows. -/
def emptyStatsStore : StatsStore := ⟨fun _ => [], fun _ => []⟩

/-- The fully-empty database. -/
def emptyDb : SearchDb := ⟨emptyCatalog, emptySqlTables, emptyStatsStore⟩

/-- A store where `"strep"` is both a known genus (canonical
`"Streptomyces"`) and a whitespace-prefixed substring of a known
species: the classifier must settle the tie. -/
def genusSpeciesCatalog : CatalogStore :=
  ⟨fun _ => none, fun _ => none,
   fun t => if t = "strep" then some "Streptomyces" else none,
   fun _ => some "Streptomyces coelicolor", fun _ => none⟩

/-- A database whose genus lookup is registered exactly (no fuzzy
table), mapping every query set to fixed sets, used to exercise the
search pipeline end to end. -/
def tinyDb : SearchDb :=
  ⟨emptyCatalog,
   ⟨fun _ => none,
    fun cat => if cat = "GENUS" then some (fun _ => ({3, 1, 2} : Finset ℕ)) else none,
    fun _ => none⟩,
   emptyStatsStore⟩

/-! ### Helper lemmas -/

theorem takeWord_snd_length (cs : List Char) : (takeWord cs).2.length ≤ cs.length := by
  induction cs with
  | nil => simp [takeWord]
  | cons c cs ih =>
    simp only [takeWord]
    split
    · simpa using Nat.le_succ_of_le ih
    · simp

theorem matchAt_some_length {cs r : List Char} {cl : Clause}
    (h : matchAt cs = some (cl, r)) : r.length < cs.length := by
  unfold matchAt at h
  split at h
  · rename_i rest
    split at h
    · exact absurd h (by simp)
    · rename_i c1 w1 r2 h1
      split at h
      · exact absurd h (by simp)
      · rename_i c2 w2 r4 h2
        split at h
        · exact absurd h (by simp)
        · rename_i c3 w3 r5 h3
          have b1 := takeWord_snd_length rest
          have b2 := takeWord_snd_length r2
          have b3 := takeWord_snd_length r4
          rw [h1] at b1
          rw [h2] at b2
          rw [h3] at b3
          simp only [Option.some.injEq, Prod.mk.injEq] at h
          obtain ⟨-, rfl⟩ := h
          simp only [List.length_cons] at *
          omega
      · exact absurd h (by simp)
    · rename_i c1 w1 r4 h1
      split at h
      · exact absurd h (by simp)
      · rename_i c3 w3 r5 h3
        have b1 := takeWord_snd_length rest
        have b3 := takeWord_snd_length r4
        rw [h1] at b1
        rw [h3] at b3
        simp only [Option.some.injEq, Prod.mk.injEq] at h
        obtain ⟨-, rfl⟩ := h
        simp only [List.length_cons] at *
        omega
    · exact absurd h (by simp)
  · exact absurd h (by simp)

/-- Any fuel at least the input length computes the same clause list:
the fuel is an artefact of the embedding, not of the scanned string. -/
theorem scanFuel_fuel_irrelevant :
    ∀ (n m : ℕ) (cs : List Char), cs.length ≤ n → cs.length ≤ m →
      scanFuel n cs = scanFuel m cs := by
  intro n
  induction n with
  | zero =>
    intro m cs hn _
    have : cs = [] := List.length_eq_zero.mp (Nat.le_zero.mp hn)
    subst this
    cases m <;> rfl
  | succ n ih =>
    intro m cs hn hm
    match cs with
    | [] => cases m <;> rfl
    | c :: rest =>
      match m with
      | 0 => simp at hm
      | m + 1 =>
        simp only [scanFuel]
        cases hmm : matchAt (c :: rest) with
        | some p =>
          obtain ⟨cl, r⟩ := p
          have hlt : r.length < (c :: rest).length := matchAt_some_length hmm
          simp only [List.length_cons] at hn hm hlt
          show cl :: scanFuel n r = cl :: scanFuel m r
          rw [ih m r (by omega) (by omega)]
        | none =>
          simp only [List.length_cons] at hn hm
          show scanFuel n rest = scanFuel m rest
          rw [ih m rest (by omega) (by omega)]

/-- Every character of the `\w` class is allow-listed. -/
theorem wordChar_mem_whitelist {c : Char} (h : isWordChar c = true) :
    WHITELIST.contains c = true := by
  simp only [isWordChar, Char.isAlpha, Char.isUpper, Char.isLower, Char.isDigit,
    Bool.or_eq_true, Bool.and_eq_true, decide_eq_true_eq, beq_iff_eq,
    UInt32.le_def, BitVec.le_def] at h
  have hc : Char.ofNat c.toNat = c := Char.ofNat_toNat c
  have hb : (65 ≤ c.toNat ∧ c.toNat ≤ 90) ∨ (97 ≤ c.toNat ∧ c.toNat ≤ 122) ∨
      (48 ≤ c.toNat ∧ c.toNat ≤ 57) ∨ c.toNat = 95 := by
    rcases h with ((h | h) | h) | h
    · exact Or.inl h
    · exact Or.inr (Or.inl h)
    · exact Or.inr (Or.inr (Or.inl h))
    · subst h
      exact Or.inr (Or.inr (Or.inr rfl))
  rw [← hc]
  have hlt : c.toNat ≤ 122 := by omega
  interval_cases h : c.toNat <;> first | rfl | omega

/-- Characters surviving `sanitise_string` are allow-listed. -/
theorem mem_sanitise_whitelist {s : String} {c : Char}
    (h : c ∈ (sanitise_string s).data) : WHITELIST.contains c = true :=
  (List.mem_filter.mp h).2

/-- A string all of whose characters are allow-listed is unchanged by
the sanitizer. -/
theorem sanitise_eq_self_of_whitelist {s : String}
    (h : ∀ c ∈ s.data, WHITELIST.contains c = true) : sanitise_string s = s := by
  show String.mk (s.data.filter fun symbol => WHITELIST.contains symbol) = s
  rw [List.filter_eq_self.mpr h]

/-- `sanitise_string` is idempotent. -/
theorem sanitise_idem (s : String) :
    sanitise_string (sanitise_string s) = sanitise_string s :=
  sanitise_eq_self_of_whitelist (fun _ hc => mem_sanitise_whitelist hc)

/-- Word-character strings are fixed points of the sanitizer. -/
theorem sanitise_eq_self_of_word {s : String}
    (h : ∀ c ∈ s.data, isWordChar c = true) : sanitise_string s = s :=
  sanitise_eq_self_of_whitelist (fun c hc => wordChar_mem_whitelist (h c hc))

/-- `takeWord` only collects word characters. -/
theorem takeWord_fst_word :
    ∀ (cs : List Char) (c : Char), c ∈ (takeWord cs).1 → isWordChar c = true := by
  intro cs
  induction cs with
  | nil =>
    intro c hc
    simp [takeWord] at hc
  | cons d cs ih =>
    intro c hc
    simp only [takeWord] at hc
    split at hc
    · rename_i hd
      rcases List.mem_cons.mp hc with rfl | hc
      · exact hd
      · exact ih c hc
    · simp at hc

/-- Every field of a clause produced by `matchAt` is a word string
(the default operation `"and"` included). -/
theorem matchAt_fields {cs r : List Char} {cl : Clause}
    (h : matchAt cs = some (cl, r)) :
    (∀ c ∈ cl.category.data, isWordChar c = true) ∧
    (∀ c ∈ cl.term.data, isWordChar c = true) ∧
    (∀ c ∈ cl.operation.data, isWordChar c = true) := by
  unfold matchAt at h
  split at h
  · rename_i rest
    split at h
    · exact absurd h (by simp)
    · rename_i c1 w1 r2 h1
      split at h
      · exact absurd h (by simp)
      · rename_i c2 w2 r4 h2
        split at h
        · exact absurd h (by simp)
        · rename_i c3 w3 r5 h3
          simp only [Option.some.injEq, Prod.mk.injEq] at h
          obtain ⟨hcl, -⟩ := h
          subst hcl
          refine ⟨fun c hc => ?_, fun c hc => ?_, fun c hc => ?_⟩
          · exact takeWord_fst_word rest c (by rw [h1]; exact hc)
          · exact takeWord_fst_word r4 c (by rw [h3]; exact hc)
          · exact takeWord_fst_word r2 c (by rw [h2]; exact hc)
      · exact absurd h (by simp)
    · rename_i c1 w1 r4 h1
      split at h
      · exact absurd h (by simp)
      · rename_i c3 w3 r5 h3
        simp only [Option.some.injEq, Prod.mk.injEq] at h
        obtain ⟨hcl, -⟩ := h
        subst hcl
        refine ⟨fun c hc => ?_, fun c hc => ?_, fun c hc => ?_⟩
        · exact takeWord_fst_word rest c (by rw [h1]; exact hc)
        · exact takeWord_fst_word r4 c (by rw [h3]; exact hc)
        · have hc' : c ∈ ['a', 'n', 'd'] := hc
          fin_cases hc' <;> decide
    · exact absurd h (by simp)
  · exact absurd h (by simp)

/-- Every clause found by the scanner has word-string fields. -/
theorem scanFuel_fields :
    ∀ (n : ℕ) (cs : List Char) (cl : Clause), cl ∈ scanFuel n cs →
      (∀ c ∈ cl.category.data, isWordChar c = true) ∧
      (∀ c ∈ cl.term.data, isWordChar c = true) ∧
      (∀ c ∈ cl.operation.data, isWordChar c = true) := by
  intro n
  induction n with
  | zero =>
    intro cs cl h
    simp [scanFuel] at h
  | succ n ih =>
    intro cs cl h
    match cs with
    | [] => simp [scanFuel] at h
    | c :: rest =>
      cases hmm : matchAt (c :: rest) with
      | some p =>
        obtain ⟨cl0, r⟩ := p
        simp only [scanFuel, hmm] at h
        rcases List.mem_cons.mp h with rfl | h
        · exact matchAt_fields hmm
        · exact ih r cl h
      | none =>
        simp only [scanFuel, hmm] at h
        exact ih rest cl h

/-- Folding union from the left equals the union of the seed with the
right fold: the Set Combiner's accumulated `all_clusters` is really the
union of all collected sets. -/
theorem foldl_union_eq_union_foldr (init : Finset ℕ) (l : List (Finset ℕ)) :
    l.foldl (fun a s => a ∪ s) init = init ∪ l.foldr (fun s a => s ∪ a) ∅ := by
  induction l generalizing init with
  | nil => simp
  | cons x xs ih =>
    simp only [List.foldl_cons, List.foldr_cons, ih (init ∪ x), Finset.union_assoc]

/-- Every clause the Term Classifier emits carries operation `and`. -/
theorem classify_term_operation (store : CatalogStore) (t : String) :
    (classify_term store t).operation = "and" := by
  unfold classify_term
  split
  · rfl
  · split
    · rfl
    · split
      · rfl
      · split
        · rfl
        · split
          · rfl
          · rfl

/-! ### Claim theorems -/

/-- C1: the Set Combiner starts from the union of all resolved clause
sets and folds the clauses left to right, unioning OR clauses,
subtracting NOT clauses and intersecting otherwise; for A = `{1,2,3}`
with AND followed by B = `{2,3,4}` with NOT the result is
`(A ∪ B) ∩ A − B = {1}`. -/
theorem c1_set_combiner :
    (∀ (parsed_query : List Clause) (collected_sets : List (Finset ℕ)),
        combine_sets parsed_query collected_sets =
          (parsed_query.zip collected_sets).foldl combine_step
            (collected_sets.foldr (fun s a => s ∪ a) ∅))
    ∧ (∀ (A B : Finset ℕ) (cat1 t1 cat2 t2 : String),
        combine_sets [⟨cat1, t1, "and"⟩, ⟨cat2, t2, "not"⟩] [A, B] = ((A ∪ B) ∩ A) \ B)
    ∧ combine_sets [⟨"catA", "a", "and"⟩, ⟨"catB", "b", "not"⟩]
        [({1, 2, 3} : Finset ℕ), {2, 3, 4}] = {1}
    ∧ ((({1, 2, 3} : Finset ℕ) ∪ {2, 3, 4}) ∩ {1, 2, 3}) \ {2, 3, 4} = {1} := by
  refine ⟨?_, ?_, by decide, by decide⟩
  · intro parsed collected
    simp only [combine_sets, foldl_union_eq_union_foldr, Finset.empty_union]
  · intro A B cat1 t1 cat2 t2
    show combine_step (combine_step ((∅ ∪ A) ∪ B) (⟨cat1, t1, "and"⟩, A))
        (⟨cat2, t2, "not"⟩, B) = _
    simp [combine_step]

/-- C3: the structured parser extracts each `[category]term` /
`[category:operation]term` occurrence in order, defaults the operation
to `and`, and silently drops all non-matching text. -/
theorem c3_structured_parse :
    parse_search_string "[type]lanthipeptide [genus]Streptomyces" =
      [⟨"type", "lanthipeptide", "and"⟩, ⟨"genus", "Streptomyces", "and"⟩]
    ∧ parse_search_string "[genus:and]Streptomyces [type:or]ripp [type:not]lasso" =
      [⟨"genus", "Streptomyces", "and"⟩, ⟨"type", "ripp", "or"⟩, ⟨"type", "lasso", "not"⟩]
    ∧ parse_search_string "???junk [x]y !!" = [⟨"x", "y", "and"⟩]
    ∧ parse_search_string "[a:or]b[c]d" = [⟨"a", "b", "or"⟩, ⟨"c", "d", "and"⟩]
    ∧ parse_search_string "[a:]b [:a]b" = [] := by
  refine ⟨?_, ?_, ?_, ?_, ?_⟩ <;> decide

/-- C7: searching the empty string returns total 0, the empty stats
dict and an empty page. -/
theorem c7_empty_search (db : SearchDb) (offset paginate : ℕ) :
    search_bgcs db "" offset paginate = (0, none, []) := by
  have hfinal : final_clusters db "" = ∅ := rfl
  have hlist : bgc_list_sorted db "" = [] := by
    simp [bgc_list_sorted, hfinal]
  simp [search_bgcs, hlist, calculate_stats]

/-- C10: any clause whose operation is neither the exact string `or`
nor `not` — including the uppercase `OR` that the structured parser
happily accepts after the colon — is combined by intersection. -/
theorem c10_unknown_operation_intersects :
    (∀ (final : Finset ℕ) (entry : Clause × Finset ℕ),
        entry.1.operation ≠ "or" → entry.1.operation ≠ "not" →
        combine_step final entry = final ∩ entry.2)
    ∧ parse_search_string "[type:OR]ripp" = [⟨"type", "ripp", "OR"⟩]
    ∧ combine_sets [⟨"genus", "strep", "and"⟩, ⟨"type", "ripp", "OR"⟩]
        [({1, 2} : Finset ℕ), {2, 3}] = {2} := by
  refine ⟨?_, by decide, by decide⟩
  intro final entry h1 h2
  simp [combine_step, h1, h2]

/-- C6: `sanitise_string` keeps exactly the allow-listed characters
(A-Z, a-z, 0-9, underscore, hyphen, parentheses, space) in their
original order, never fails, is idempotent, and maps empty to empty. -/
theorem c6_sanitise_allowlist :
    (∀ s : String, sanitise_string (sanitise_string s) = sanitise_string s)
    ∧ (∀ (s : String) (c : Char), c ∈ (sanitise_string s).data → c ∈ WHITELIST)
    ∧ (∀ s : String, (sanitise_string s).data.Sublist s.data)
    ∧ (∀ c : Char, c ∈ WHITELIST ↔
        (c.isUpper = true ∨ c.isLower = true ∨ c.isDigit = true ∨
          c ∈ (['_', '-', '(', ')', ' '] : List Char)))
    ∧ sanitise_string "" = "" := by
  refine ⟨sanitise_idem, ?_, ?_, ?_, rfl⟩
  · intro s c hc
    have := mem_sanitise_whitelist hc
    exact List.elem_iff.mp this
  · intro s
    exact List.filter_sublist s.data
  · intro c
    constructor
    · intro h
      fin_cases h <;> decide
    · intro h
      have hw : WHITELIST.contains c = true := by
        rcases h with h | h | h | h
        · exact wordChar_mem_whitelist (by simp [isWordChar, Char.isAlpha, h])
        · exact wordChar_mem_whitelist (by simp [isWordChar, Char.isAlpha, h])
        · exact wordChar_mem_whitelist (by simp [isWordChar, h])
        · fin_cases h <;> decide
      exact List.elem_iff.mp hw

/-- Witness for C6 at a concrete input: the `%` of `"%a"` is dropped
and the surviving character is allow-listed. -/
theorem c6_sanitise_allowlist_witness : 'a' ∈ WHITELIST :=
  c6_sanitise_allowlist.2.1 "%a" 'a' (by decide)

/-- Witness for C10 at a concrete input: an unknown operation string
(`"xyz"`) intersects. -/
theorem c10_unknown_operation_intersects_witness :
    combine_step {5} (⟨"a", "b", "xyz"⟩, {5, 6}) = ({5} : Finset ℕ) ∩ {5, 6} :=
  c10_unknown_operation_intersects.1 {5} (⟨"a", "b", "xyz"⟩, {5, 6})
    (by decide) (by decide)

/-- C2: the Term Classifier probes the store in the fixed order type,
accession, genus, species (with the `'% ' + term` pattern), monomer;
the first hit fixes the category and replaces the token by the store's
canonical value; a total miss yields `compound_seq` with the term
unchanged; and every produced clause carries operation `and`.  In
particular a token matching a genus is classified genus no matter what
the species probe would say. -/
theorem c2_term_classifier :
    (∀ (store : CatalogStore) (t : String), (classify_term store t).operation = "and")
    ∧ (∀ (store : CatalogStore) (s : String), ∀ cl ∈ parse_simple_search store s,
        cl.operation = "and")
    ∧ (∀ (store : CatalogStore) (t canonical : String),
        store.search_is_type t = some canonical →
        classify_term store t = ⟨"type", canonical, "and"⟩)
    ∧ (∀ (store : CatalogStore) (t canonical : String),
        store.search_is_type t = none →
        store.search_is_acc t = some canonical →
        classify_term store t = ⟨"acc", canonical, "and"⟩)
    ∧ (∀ (store : CatalogStore) (t canonical : String),
        store.search_is_type t = none →
        store.search_is_acc t = none →
        store.search_is_genus t = some canonical →
        classify_term store t = ⟨"genus", canonical, "and"⟩)
    ∧ (∀ (store : CatalogStore) (t canonical : String),
        store.search_is_type t = none →
        store.search_is_acc t = none →
        store.search_is_genus t = none →
        store.search_is_species ("% " ++ t) = some canonical →
        classify_term store t = ⟨"species", canonical, "and"⟩)
    ∧ (∀ (store : CatalogStore) (t canonical : String),
        store.search_is_type t = none →
        store.search_is_acc t = none →
        store.search_is_genus t = none →
        store.search_is_species ("% " ++ t) = none →
        store.search_is_monomer t = some canonical →
        classify_term store t = ⟨"monomer", canonical, "and"⟩)
    ∧ (∀ (store : CatalogStore) (t : String),
        store.search_is_type t = none →
        store.search_is_acc t = none →
        store.search_is_genus t = none →
        store.search_is_species ("% " ++ t) = none →
        store.search_is_monomer t = none →
        classify_term store t = ⟨"compound_seq", t, "and"⟩) := by
  refine ⟨classify_term_operation, ?_, ?_, ?_, ?_, ?_, ?_, ?_⟩
  · intro store s cl hcl
    simp only [parse_simple_search, List.mem_map] at hcl
    obtain ⟨t, -, rfl⟩ := hcl
    exact classify_term_operation store t
  all_goals intros store t canonical
  all_goals intros
  all_goals simp_all [classify_term]

/-- Witness for C2 at a concrete store on which `"strep"` matches both
the genus probe and the species probe: genus wins. -/
theorem c2_term_classifier_witness :
    classify_term genusSpeciesCatalog "strep" = ⟨"genus", "Streptomyces", "and"⟩ :=
  c2_term_classifier.2.2.2.2.1 genusSpeciesCatalog "strep" "Streptomyces"
    rfl rfl (by decide)

/-- C4: the Category Resolver probes the fuzzy, exact, and
exact-or-description tables in that order for the (upper-cased)
category, wraps the term as `%term%` for the fuzzy mode and for the
description argument of the third mode, passes it verbatim in exact
mode, and returns the empty set when no table knows the category. -/
theorem c4_category_resolver (tables : SqlTables) (category term : String) :
    (∀ q, tables.cluster_by_fuzzy category.toUpper = some q →
        clusters_by_category tables category term = q ("%" ++ term ++ "%"))
    ∧ (tables.cluster_by_fuzzy category.toUpper = none →
        ∀ q, tables.cluster_by category.toUpper = some q →
          clusters_by_category tables category term = q term)
    ∧ (tables.cluster_by_fuzzy category.toUpper = none →
        tables.cluster_by category.toUpper = none →
        ∀ q, tables.cluster_by_or_desc category.toUpper = some q →
          clusters_by_category tables category term = q term ("%" ++ term ++ "%"))
    ∧ (tables.cluster_by_fuzzy category.toUpper = none →
        tables.cluster_by category.toUpper = none →
        tables.cluster_by_or_desc category.toUpper = none →
        clusters_by_category tables category term = ∅) := by
  refine ⟨?_, ?_, ?_, ?_⟩ <;> intros <;> simp_all [clusters_by_category]

/-- Witness for C4: an entirely unregistered category resolves to the
empty set. -/
theorem c4_category_resolver_witness :
    clusters_by_category emptySqlTables "bogus" "x" = ∅ :=
  (c4_category_resolver emptySqlTables "bogus" "x").2.2.2 rfl rfl rfl

/-- C8 (counterexample): the input `"["` is non-empty, selects
structured mode, and parses to zero clauses — the claim that every
non-empty input yields at least one clause is false. -/
theorem c8_counterexample :
    ("[" : String) ≠ "" ∧ parse_query emptyCatalog "[" = [] := by
  refine ⟨by decide, by decide⟩

/-- C8 (amended): in unstructured mode — no `[` in the input — any
input with at least one whitespace-separated token parses to at least
one clause. -/
theorem c8_nonempty_parse (store : CatalogStore) (s : String)
    (hb : s.data.contains '[' = false) (ht : splitTokens s ≠ []) :
    1 ≤ (parse_query store s).length := by
  unfold parse_query
  rw [hb]
  simp only [Bool.false_eq_true, if_false, parse_simple_search, List.length_map]
  exact List.length_pos.mpr ht

/-- Witness for C8 (amended) at a concrete input. -/
theorem c8_nonempty_parse_witness :
    1 ≤ (parse_query emptyCatalog "abc").length :=
  c8_nonempty_parse emptyCatalog "abc" (by decide) (by decide)

/-- The Python slice `l[o : min(o+p, len(l))]` for positive `p` is the
`p`-element window of `l` starting at `o`. -/
theorem take_min_drop (l : List ℕ) (o p : ℕ) :
    (l.take (min (o + p) l.length)).drop o = (l.drop o).take p := by
  rw [List.drop_take]
  rcases le_or_lt (o + p) l.length with h | h
  · rw [min_eq_left h]
    congr 1
    omega
  · rw [min_eq_right h.le]
    rw [List.take_of_length_le, List.take_of_length_le]
    · rw [List.length_drop]
      omega
    · rw [List.length_drop]

/-- C5: the final result set is sorted ascending by record id; with
`paginate == 0` the page is everything from `offset` on, with
`paginate > 0` it is the `paginate`-element window starting at
`offset`, so it never exceeds `paginate` elements nor reaches past the
end; an offset beyond the end gives an empty page. -/
theorem c5_pager :
    (∀ (db : SearchDb) (s : String), List.Sorted (· ≤ ·) (bgc_list_sorted db s))
    ∧ (∀ (db : SearchDb) (s : String) (offset : ℕ),
        (search_bgcs db s offset 0).2.2 = (bgc_list_sorted db s).drop offset)
    ∧ (∀ (db : SearchDb) (s : String) (offset paginate : ℕ), 0 < paginate →
        (search_bgcs db s offset paginate).2.2 =
          ((bgc_list_sorted db s).drop offset).take paginate)
    ∧ (∀ (db : SearchDb) (s : String) (offset paginate : ℕ), 0 < paginate →
        (search_bgcs db s offset paginate).2.2.length ≤ paginate)
    ∧ (∀ (db : SearchDb) (s : String) (offset paginate : ℕ),
        (search_bgcs db s offset paginate).2.2.Sublist (bgc_list_sorted db s))
    ∧ (∀ (db : SearchDb) (s : String) (offset paginate : ℕ),
        List.Sorted (· ≤ ·) (search_bgcs db s offset paginate).2.2)
    ∧ (∀ (db : SearchDb) (s : String) (offset paginate : ℕ),
        (bgc_list_sorted db s).length ≤ offset →
        (search_bgcs db s offset paginate).2.2 = []) := by
  have hpage : ∀ (db : SearchDb) (s : String) (offset paginate : ℕ),
      (search_bgcs db s offset paginate).2.2 =
        ((bgc_list_sorted db s).take
          (if paginate > 0
            then min (offset + paginate) (bgc_list_sorted db s).length
            else (bgc_list_sorted db s).length)).drop offset :=
    fun _ _ _ _ => rfl
  have hsorted : ∀ (db : SearchDb) (s : String),
      List.Sorted (· ≤ ·) (bgc_list_sorted db s) :=
    fun db s => Finset.sort_sorted _ _
  have hsub : ∀ (db : SearchDb) (s : String) (offset paginate : ℕ),
      (search_bgcs db s offset paginate).2.2.Sublist (bgc_list_sorted db s) := by
    intro db s offset paginate
    rw [hpage]
    exact (List.drop_sublist _ _).trans (List.take_sublist _ _)
  refine ⟨hsorted, ?_, ?_, ?_, hsub, ?_, ?_⟩
  · intro db s offset
    rw [hpage]
    simp
  · intro db s offset paginate hp
    rw [hpage]
    rw [if_pos hp]
    exact take_min_drop _ offset paginate
  · intro db s offset paginate hp
    rw [hpage, if_pos hp, take_min_drop _ offset paginate]
    simp
  · intro db s offset paginate
    exact (hsorted db s).sublist (hsub db s offset paginate)
  · intro db s offset paginate hoff
    rw [hpage]
    apply List.drop_eq_nil_of_le
    calc ((bgc_list_sorted db s).take _).length ≤ (bgc_list_sorted db s).length :=
          (List.take_sublist _ _).length_le
      _ ≤ offset := hoff

/-- Witness for C5 at a concrete search: a one-element page limit is
respected. -/
theorem c5_pager_witness : (search_bgcs tinyDb "[genus]strep" 1 1).2.2.length ≤ 1 :=
  c5_pager.2.2.2.1 tinyDb "[genus]strep" 1 1 (by decide)

/-- C9: every externally supplied term and category is sanitized before
classification, resolution or the registry sees it: structured-mode
clauses are made of `\w` characters only, hence fixed points of
`sanitise_string`; unstructured-mode clauses are fixed points provided
the store's canonical values are (the engine sanitises the raw token
before probing, and either keeps it or adopts the store's canonical
value); and the registry lookup only ever sees sanitized inputs. -/
theorem c9_sanitised_inputs :
    (∀ (s : String), ∀ cl ∈ parse_search_string s,
        sanitise_string cl.category = cl.category ∧ sanitise_string cl.term = cl.term)
    ∧ (∀ (store : CatalogStore),
        (∀ (t canonical : String),
          (store.search_is_type t = some canonical ∨
            store.search_is_acc t = some canonical ∨
            store.search_is_genus t = some canonical ∨
            store.search_is_species t = some canonical ∨
            store.search_is_monomer t = some canonical) →
          sanitise_string canonical = canonical) →
        ∀ (s : String), ∀ cl ∈ parse_simple_search store s,
          sanitise_string cl.category = cl.category ∧ sanitise_string cl.term = cl.term)
    ∧ (∀ (available : RegistryTable) (category term : String),
        available_term_by_category available category term =
          available_term_by_category available
            (sanitise_string category) (sanitise_string term)) := by
  refine ⟨?_, ?_, ?_⟩
  · intro s cl hcl
    obtain ⟨hcat, hterm, -⟩ := scanFuel_fields _ _ cl hcl
    exact ⟨sanitise_eq_self_of_word hcat, sanitise_eq_self_of_word hterm⟩
  · intro store hstore s cl hcl
    simp only [parse_simple_search, List.map_map, List.mem_map] at hcl
    obtain ⟨t, -, rfl⟩ := hcl
    simp only [Function.comp_apply]
    unfold classify_term
    split
    · rename_i canonical h
      exact ⟨(by decide : sanitise_string "type" = "type"), hstore _ canonical (Or.inl h)⟩
    · split
      · rename_i canonical h
        exact ⟨(by decide : sanitise_string "acc" = "acc"), hstore _ canonical (Or.inr (Or.inl h))⟩
      · split
        · rename_i canonical h
          exact ⟨(by decide : sanitise_string "genus" = "genus"), hstore _ canonical (Or.inr (Or.inr (Or.inl h)))⟩
        · split
          · rename_i canonical h
            exact ⟨(by decide : sanitise_string "species" = "species"),
              hstore _ canonical (Or.inr (Or.inr (Or.inr (Or.inl h))))⟩
          · split
            · rename_i canonical h
              exact ⟨(by decide : sanitise_string "monomer" = "monomer"),
                hstore _ canonical (Or.inr (Or.inr (Or.inr (Or.inr h))))⟩
            · exact ⟨(by decide : sanitise_string "compound_seq" = "compound_seq"),
                sanitise_idem t⟩
  · intro available category term
    unfold available_term_by_category
    rw [sanitise_idem, sanitise_idem]

/-- Witness for C9 at a concrete store and raw input `"foo%"`: the
clause the classifier produces has sanitized category and term. -/
theorem c9_sanitised_inputs_witness :
    sanitise_string "compound_seq" = "compound_seq" ∧ sanitise_string "foo" = "foo" :=
  c9_sanitised_inputs.2.1 emptyCatalog
    (fun t canonical h => by
      rcases h with h | h | h | h | h <;> simp [emptyCatalog] at h)
    "foo%" ⟨"compound_seq", "foo", "and"⟩ (by decide)

end DbApi
